import Mathlib

/-
Verification of the stock ledger and order-fulfillment workflow of the
gestion-stock-tech repository.

The model is a shallow embedding of the Python source:
  apps/users/models.py            (Profile, UserRole)
  apps/inventory/models.py        (StockTech and its row-level methods)
  apps/inventory/services/stock_service.py (StockService operations)
  apps/audit/models.py            (EventLog hash chaining)
  apps/audit/services/audit_service.py     (verify_audit_chain)
  apps/orders/models.py           (Panier, Demande, Reservation)
  apps/orders/services/panier_service.py   (submit_cart)
  apps/orders/services/admin_workflow.py   (approve/prepare/handover)
  apps/api/views/orders_views.py  (cancel_reservation)

Django `Decimal(max_digits=10, decimal_places=2)` quantities are modelled as
`Int`: every operation used by the code (addition, subtraction, `min`,
comparison) commutes with scaling by the fixed two-decimal step, so the
integer model is faithful to the Decimal arithmetic.  Django's
`transaction.atomic` decorator is modelled by `Except`: an `.error` result
carries no state, i.e. the transaction rolled back and nothing was written.
Database rows that may not exist (`DoesNotExist` / `get_or_create`) are
modelled as `Option` values.  SHA-256 is modelled as an arbitrary function
parameter `h`; concrete instances are supplied where a computation is needed.
-/

deriving instance DecidableEq for Except

/-- Model of apps/users/models.py `UserRole`. -/
inductive UserRole
  | ADMIN
  | TECH
deriving DecidableEq, Repr

/-- Model of apps/users/models.py `Profile` (only the fields the core uses:
the primary key and the role). -/
structure Profile where
  id : Nat
  role : UserRole
deriving DecidableEq, Repr

/-- Model of apps/inventory/models.py `StockTech`: the per-(technician,
article) stock row.  The technician and article keys are implicit: each
operation acts on the row it locked with `select_for_update`. -/
structure StockLevel where
  quantity : Int
  reserved_qty : Int
deriving DecidableEq, Repr

/-- Source: `StockTech.available_quantity` property: `quantity - reserved_qty`. -/
def StockLevel.available_quantity (s : StockLevel) : Int :=
  s.quantity - s.reserved_qty

/-- The spec's StockLevel invariant: `0 ≤ reserved_qty ≤ quantity`. -/
def StockLevel.invariantHolds (s : StockLevel) : Prop :=
  0 ≤ s.reserved_qty ∧ s.reserved_qty ≤ s.quantity

instance (s : StockLevel) : Decidable s.invariantHolds :=
  inferInstanceAs (Decidable (0 ≤ s.reserved_qty ∧ s.reserved_qty ≤ s.quantity))

/-- The raise sites of StockService and of StockTech's row methods.  Each
constructor corresponds to one `raise` in the source. -/
inductive StockError
  | onlyTechnicians
  | nonPositiveQuantity
  | insufficientStock
  | negativeAdjust
  | noChange
  | bothMustBeTechnicians
  | sameTechnician
  | noSourceStock
  | insufficientTransfer
  | notEnoughToConsume
  | notEnoughAvailable
  | releaseTooMuch
deriving DecidableEq, Repr

/-- Source: `StockTech.reserve_quantity`: raises if `qty > available_quantity`,
else `reserved_qty += qty`. -/
def StockLevel.reserve_quantity (s : StockLevel) (qty : Int) :
    Except StockError StockLevel :=
  if s.available_quantity < qty then .error .notEnoughAvailable
  else .ok { quantity := s.quantity, reserved_qty := s.reserved_qty + qty }

/-- Source: `StockTech.release_reservation`: raises if `qty > reserved_qty`,
else `reserved_qty -= qty`. -/
def StockLevel.release_reservation (s : StockLevel) (qty : Int) :
    Except StockError StockLevel :=
  if s.reserved_qty < qty then .error .releaseTooMuch
  else .ok { quantity := s.quantity, reserved_qty := s.reserved_qty - qty }

/-- Source: `StockTech.consume_stock`: raises if `qty > quantity`; else
`quantity -= qty` and, if `reserved_qty > 0`, `reserved_qty -= min(qty, reserved_qty)`. -/
def StockLevel.consume_stock (s : StockLevel) (qty : Int) :
    Except StockError StockLevel :=
  if s.quantity < qty then .error .notEnoughToConsume
  else
    .ok { quantity := s.quantity - qty
          reserved_qty :=
            if 0 < s.reserved_qty then s.reserved_qty - min qty s.reserved_qty
            else s.reserved_qty }

/-- Model of apps/audit/models.py `MovementReason`. -/
inductive MovementReason
  | ISSUE
  | RECEIPT
  | ADJUST
  | TRANSFER
  | INITIAL
deriving DecidableEq, Repr

/-- Model of apps/audit/models.py `StockMovement` (the semantic fields:
which technician's row, the signed delta, the reason and the balance after;
the free-text, linkage and hash fields are not needed by any claim). -/
structure StockMovement where
  technician : Nat
  delta : Int
  reason : MovementReason
  balance_after : Int
deriving DecidableEq, Repr

/-- The database state a single-row StockService operation can touch: the
locked stock row plus the append-only movement table. -/
structure InvState where
  stock : StockLevel
  movements : List StockMovement
deriving DecidableEq, Repr

/-- Source: `StockService.issue_stock`: role check, positivity check,
availability check, then `consume_stock` and one ISSUE movement with
`delta = -quantity` and `balance_after = stock.quantity`. -/
def issue_stock (technician : Profile) (qty : Int) (st : InvState) :
    Except StockError InvState :=
  if technician.role ≠ .TECH then .error .onlyTechnicians
  else if qty ≤ 0 then .error .nonPositiveQuantity
  else if st.stock.available_quantity < qty then .error .insufficientStock
  else
    match st.stock.consume_stock qty with
    | .error e => .error e
    | .ok s' =>
        .ok { stock := s'
              movements := st.movements ++
                [{ technician := technician.id, delta := -qty,
                   reason := .ISSUE, balance_after := s'.quantity }] }

/-- Source: `StockService.receive_stock`: role check, positivity check, then
`quantity += qty` and one RECEIPT movement with `delta = quantity`. -/
def receive_stock (technician : Profile) (qty : Int) (st : InvState) :
    Except StockError InvState :=
  if technician.role ≠ .TECH then .error .onlyTechnicians
  else if qty ≤ 0 then .error .nonPositiveQuantity
  else
    let s' : StockLevel :=
      { quantity := st.stock.quantity + qty, reserved_qty := st.stock.reserved_qty }
    .ok { stock := s'
          movements := st.movements ++
            [{ technician := technician.id, delta := qty,
               reason := .RECEIPT, balance_after := s'.quantity }] }

/-- Source: `StockService.adjust_stock`: rejects `new_quantity < 0`, rejects
`delta == 0`, then sets `quantity = new_quantity` (leaving `reserved_qty`
untouched) and records one ADJUST movement. -/
def adjust_stock (technician : Profile) (new_quantity : Int) (st : InvState) :
    Except StockError InvState :=
  if new_quantity < 0 then .error .negativeAdjust
  else
    let delta := new_quantity - st.stock.quantity
    if delta = 0 then .error .noChange
    else
      let s' : StockLevel :=
        { quantity := new_quantity, reserved_qty := st.stock.reserved_qty }
      .ok { stock := s'
            movements := st.movements ++
              [{ technician := technician.id, delta := delta,
                 reason := .ADJUST, balance_after := new_quantity }] }

/-- Source: `StockService.transfer_stock`: role checks, `from == to` check,
positivity check, source row must exist, availability check on the source,
then `consume_stock` on the source, `quantity += qty` on the destination
(created with quantity 0 when absent) and two linked TRANSFER movements. -/
def transfer_stock (from_technician to_technician : Profile) (qty : Int)
    (from_stock? to_stock? : Option StockLevel) (movements : List StockMovement) :
    Except StockError (StockLevel × StockLevel × List StockMovement) :=
  if from_technician.role ≠ .TECH ∨ to_technician.role ≠ .TECH then
    .error .bothMustBeTechnicians
  else if from_technician.id = to_technician.id then .error .sameTechnician
  else if qty ≤ 0 then .error .nonPositiveQuantity
  else
    match from_stock? with
    | none => .error .noSourceStock
    | some from_stock =>
        if from_stock.available_quantity < qty then .error .insufficientTransfer
        else
          let to_stock := to_stock?.getD { quantity := 0, reserved_qty := 0 }
          match from_stock.consume_stock qty with
          | .error e => .error e
          | .ok from' =>
              let to' : StockLevel :=
                { quantity := to_stock.quantity + qty
                  reserved_qty := to_stock.reserved_qty }
              .ok (from', to',
                movements ++
                  [{ technician := from_technician.id, delta := -qty,
                     reason := .TRANSFER, balance_after := from'.quantity },
                   { technician := to_technician.id, delta := qty,
                     reason := .TRANSFER, balance_after := to'.quantity }])

/-- Semantics of the `@transaction.atomic` decorator on a single-row
operation: an exception rolls the whole transaction back, leaving the
database state untouched. -/
def run_atomic (f : InvState → Except StockError InvState) (st : InvState) :
    InvState :=
  match f st with
  | .ok st' => st'
  | .error _ => st

/-- Model of apps/audit/models.py `EventLog`'s immutable payload: exactly the
fields that `EventLog._calculate_hash` serializes, minus `prev_hash` (which the
hash function receives separately, as in the source).  JSON blobs are kept as
their canonical serialization strings.  The source truncates `user_agent` to
200 characters both on save and in the hash input, so the stored field already
equals the hashed one. -/
structure EventData where
  actor_user_id : Nat
  entity_type : String
  entity_id : String
  action : String
  before_data : Option String
  after_data : Option String
  timestamp : Nat
  ip_address : Option String
  user_agent : String
  request_id : String
deriving DecidableEq, Repr

/-- The type of the digest step of `EventLog._calculate_hash`: SHA-256 over
the canonical JSON of the payload together with `prev_hash`.  The model is
parametric in this function. -/
def HashFn : Type := EventData → String → String

/-- Model of a stored apps/audit/models.py `EventLog` row: payload plus the
two hash-chain fields.  `prev_hash` is the empty string for the first record. -/
structure EventLog where
  data : EventData
  prev_hash : String
  record_hash : String
deriving DecidableEq, Repr

/-- Source: `EventLog.verify_hash`: recompute the digest over the stored
fields (including the stored `prev_hash`) and compare with `record_hash`. -/
def EventLog.verify_hash_with (h : HashFn) (e : EventLog) : Bool :=
  h e.data e.prev_hash == e.record_hash

/-- The `record_hash` of the chronologically last stored record, empty string
if the table is empty: what `EventLog.save` reads with
`EventLog.objects.order_by(-timestamp).first()`. -/
def last_hash (chain : List EventLog) : String :=
  match chain.getLast? with
  | none => ""
  | some e => e.record_hash

/-- Source: `EventLog.save` (via `AuditService.log_event`): `prev_hash` is the
hash of the chronologically last stored record (empty string if none),
`record_hash` is the digest of the payload with that `prev_hash`, and the
record is appended. -/
def log_event (h : HashFn) (chain : List EventLog) (d : EventData) :
    List EventLog :=
  let prev := last_hash chain
  chain ++ [{ data := d, prev_hash := prev, record_hash := h d prev }]

/-- A sequence of `AuditService.log_event` calls starting from an empty table. -/
def build_chain (h : HashFn) (ds : List EventData) : List EventLog :=
  ds.foldl (log_event h) []

/-- Recursive characterization of `build_chain`, threading the previous hash. -/
def build_from (h : HashFn) (prev : String) : List EventData → List EventLog
  | [] => []
  | d :: ds =>
      { data := d, prev_hash := prev, record_hash := h d prev } ::
        build_from h (h d prev) ds

/-- The error messages `AuditService.verify_audit_chain` can append to its
`errors` list, keyed by the position of the offending record in timestamp
order. -/
inductive ChainErr
  | hashMismatch (i : Nat)
  | firstPrevNonEmpty
  | chainBreak (i : Nat)
deriving DecidableEq, Repr

/-- The dictionary returned by `AuditService.verify_audit_chain`. -/
structure ChainReport where
  valid : Bool
  total_records : Nat
  verified_records : Nat
  errors : List ChainErr
deriving DecidableEq, Repr

/-- The first loop of `verify_audit_chain`: one `hash mismatch` error per
record whose `verify_hash` fails, in order. -/
def hash_errors_from (h : HashFn) (i : Nat) : List EventLog → List ChainErr
  | [] => []
  | e :: rest =>
      (if e.verify_hash_with h then [] else [.hashMismatch i]) ++
        hash_errors_from h (i + 1) rest

/-- The second loop of `verify_audit_chain`, from the second record on: each
record's `prev_hash` must equal the stored `record_hash` of its predecessor. -/
def link_errors_from (i : Nat) (prev : EventLog) : List EventLog → List ChainErr
  | [] => []
  | e :: rest =>
      (if e.prev_hash == prev.record_hash then [] else [.chainBreak i]) ++
        link_errors_from (i + 1) e rest

/-- The second loop of `verify_audit_chain` in full: the first record must
have an empty `prev_hash`, later records must link to their predecessor. -/
def link_errors : List EventLog → List ChainErr
  | [] => []
  | e :: rest =>
      (if e.prev_hash == "" then [] else [.firstPrevNonEmpty]) ++
        link_errors_from 1 e rest

/-- Source: `AuditService.verify_audit_chain` over the full history in
timestamp order: per-record hash verification, then chain-link verification;
`valid` iff no error, `verified_records` counts the records whose stored hash
matches. -/
def verify_audit_chain (h : HashFn) (events : List EventLog) : ChainReport :=
  if events.isEmpty then
    { valid := true, total_records := 0, verified_records := 0, errors := [] }
  else
    let errs := hash_errors_from h 0 events ++ link_errors events
    { valid := errs.isEmpty
      total_records := events.length
      verified_records := events.countP (EventLog.verify_hash_with h)
      errors := errs }

/-- Mutating the stored immutable fields of the k-th record without updating
its stored `record_hash` (or its stored `prev_hash`): the tampering scenario
of the chain-integrity property. -/
def tamper_data : List EventLog → Nat → EventData → List EventLog
  | [], _, _ => []
  | e :: rest, 0, d =>
      { data := d, prev_hash := e.prev_hash, record_hash := e.record_hash } :: rest
  | e :: rest, Nat.succ k, d => e :: tamper_data rest k d

/-- A concrete stand-in for SHA-256, used only to evaluate the model on
concrete inputs; it is collision-free on the concrete payloads used here. -/
def demoHash (d : EventData) (prev : String) : String :=
  String.append (String.append (String.append d.action "#")
    (String.append (toString d.actor_user_id) (toString d.timestamp))) prev

/-- Three concrete audit payloads used by the concrete instances. -/
def demoData : List EventData :=
  [ { actor_user_id := 1, entity_type := "Panier", entity_id := "c1",
      action := "create_cart", before_data := none, after_data := some "a1",
      timestamp := 10, ip_address := none, user_agent := "", request_id := "" },
    { actor_user_id := 1, entity_type := "Panier", entity_id := "c1",
      action := "submit_cart", before_data := some "b2", after_data := some "a2",
      timestamp := 11, ip_address := none, user_agent := "", request_id := "" },
    { actor_user_id := 2, entity_type := "Demande", entity_id := "d1",
      action := "approve_demand_full", before_data := some "b3",
      after_data := some "a3", timestamp := 12, ip_address := none,
      user_agent := "", request_id := "" } ]

/-- The first demo payload with its `action` field mutated: the tampering
input for the concrete counterexample. -/
def demoTampered : EventData :=
  { actor_user_id := 1, entity_type := "Panier", entity_id := "c1",
    action := "delete_cart", before_data := none, after_data := some "a1",
    timestamp := 10, ip_address := none, user_agent := "", request_id := "" }

/-- Model of apps/inventory/models.py `Article` (the fields the workflow
reads: primary key and the active flag). -/
structure Article where
  id : Nat
  is_active : Bool
deriving DecidableEq, Repr

/-- Model of apps/orders/models.py `DemandeStatus`. -/
inductive DemandeStatus
  | SUBMITTED
  | APPROVED
  | PARTIAL
  | REFUSED
  | PREPARED
  | HANDED_OVER
  | CLOSED
deriving DecidableEq, Repr

/-- Model of apps/orders/models.py `DemandeLine` (article plus the three
quantity fields; `qty_approved` and `qty_prepared` default to 0 on creation). -/
structure DemandeLine where
  article : Article
  qty_requested : Int
  qty_approved : Int
  qty_prepared : Int
deriving DecidableEq, Repr

/-- Model of apps/orders/models.py `Demande`: status plus its lines, kept in
creation order (one line per article). -/
structure Demande where
  status : DemandeStatus
  lines : List DemandeLine
deriving DecidableEq, Repr

/-- Source: `Demande.total_approved_quantity` property. -/
def Demande.total_approved_quantity (d : Demande) : Int :=
  (d.lines.map fun l => l.qty_approved).sum

/-- Source: `Demande.is_fully_approved` property. -/
def Demande.is_fully_approved (d : Demande) : Bool :=
  d.lines.all fun l => l.qty_approved == l.qty_requested

/-- Source: `Demande.can_be_prepared`: status APPROVED or PARTIAL and total
approved quantity strictly positive. -/
def Demande.can_be_prepared (d : Demande) : Bool :=
  (d.status == .APPROVED || d.status == .PARTIAL) &&
    decide (0 < d.total_approved_quantity)

/-- Source: `Demande.can_be_handed_over`. -/
def Demande.can_be_handed_over (d : Demande) : Bool :=
  d.status == .PREPARED

/-- The raise sites of `AdminWorkflow` that the claims exercise. -/
inductive WorkflowError
  | onlyAdmins
  | onlySubmitted
  | lineNotFound
  | negativeApproval
  | exceedsRequested
  | cannotBePrepared
  | lineReserveFailed
  | cannotBeHandedOver
  | invalidCredential
deriving DecidableEq, Repr

/-- The per-line loop of `AdminWorkflow.approve_demand_partial`: look the line
up (error if absent), reject a negative quantity, reject a quantity above
`qty_requested`, else store it and continue.  Lines are addressed by their
position in the demand. -/
def apply_line_approvals (lines : List DemandeLine) :
    List (Nat × Int) → Except WorkflowError (List DemandeLine)
  | [] => .ok lines
  | (i, q) :: rest =>
      match lines.get? i with
      | none => .error .lineNotFound
      | some line =>
          if q < 0 then .error .negativeApproval
          else if line.qty_requested < q then .error .exceedsRequested
          else
            apply_line_approvals (lines.set i { line with qty_approved := q }) rest

/-- Source: `AdminWorkflow.approve_demand_partial`: admin check, SUBMITTED
check, per-line approvals, then the status is APPROVED when every line is
fully approved, PARTIAL when the total approved quantity is positive, and
REFUSED otherwise. -/
def approve_demand_partially (approver_is_admin : Bool) (d : Demande)
    (line_approvals : List (Nat × Int)) : Except WorkflowError Demande :=
  if ¬approver_is_admin then .error .onlyAdmins
  else if d.status ≠ .SUBMITTED then .error .onlySubmitted
  else
    match apply_line_approvals d.lines line_approvals with
    | .error e => .error e
    | .ok lines' =>
        let updated : Demande := { status := d.status, lines := lines' }
        let new_status : DemandeStatus :=
          if updated.is_fully_approved then .APPROVED
          else if 0 < updated.total_approved_quantity then .PARTIAL
          else .REFUSED
        .ok { status := new_status, lines := lines' }

/-- The per-line body of `AdminWorkflow.prepare_demand`: lines with no
approved quantity are skipped (the queryset filters `qty_approved > 0`);
otherwise reserve the approved quantity if available, else reserve whatever
is available (possibly nothing) and set `qty_prepared` to the reserved
amount.  A reservation failure is re-raised as a workflow error. -/
def prepare_line (line : DemandeLine) (stock : StockLevel) :
    Except WorkflowError (DemandeLine × StockLevel) :=
  if line.qty_approved ≤ 0 then .ok (line, stock)
  else if line.qty_approved ≤ stock.available_quantity then
    match stock.reserve_quantity line.qty_approved with
    | .error _ => .error .lineReserveFailed
    | .ok stock' => .ok ({ line with qty_prepared := line.qty_approved }, stock')
  else if 0 < stock.available_quantity then
    match stock.reserve_quantity stock.available_quantity with
    | .error _ => .error .lineReserveFailed
    | .ok stock' =>
        .ok ({ line with qty_prepared := stock.available_quantity }, stock')
  else .ok ({ line with qty_prepared := 0 }, stock)

/-- The line loop of `AdminWorkflow.prepare_demand`: each line acts on the
requesting technician's stock row for that line's article (rows are paired
positionally with the lines; a missing row is the freshly created zero row). -/
def prepare_lines :
    List DemandeLine → List StockLevel →
      Except WorkflowError (List DemandeLine × List StockLevel)
  | [], _ => .ok ([], [])
  | _ :: _, [] => .ok ([], [])
  | l :: ls, s :: ss =>
      match prepare_line l s with
      | .error e => .error e
      | .ok (l', s') =>
          match prepare_lines ls ss with
          | .error e => .error e
          | .ok (ls', ss') => .ok (l' :: ls', s' :: ss')

/-- Source: `AdminWorkflow.prepare_demand`: admin check, `can_be_prepared`
check, reserve per line, then the demand transitions to PREPARED. -/
def prepare_demand (preparer_is_admin : Bool) (d : Demande)
    (stocks : List StockLevel) :
    Except WorkflowError (Demande × List StockLevel) :=
  if ¬preparer_is_admin then .error .onlyAdmins
  else if ¬d.can_be_prepared then .error .cannotBePrepared
  else
    match prepare_lines d.lines stocks with
    | .error e => .error e
    | .ok (lines', stocks') =>
        .ok ({ status := .PREPARED, lines := lines' }, stocks')

/-- The stock side of `AdminWorkflow.handover_demand`: one
`StockService.receive_stock` call per line with `qty_prepared > 0`, against
the requesting technician's row for that line's article. -/
def handover_receipts (technician : Profile) :
    List DemandeLine → List StockLevel →
      Except StockError (List StockLevel × List StockMovement)
  | [], _ => .ok ([], [])
  | _ :: _, [] => .ok ([], [])
  | l :: ls, s :: ss =>
      if 0 < l.qty_prepared then
        match receive_stock technician l.qty_prepared { stock := s, movements := [] } with
        | .error e => .error e
        | .ok st' =>
            match handover_receipts technician ls ss with
            | .error e => .error e
            | .ok (ss', ms) => .ok (st'.stock :: ss', st'.movements ++ ms)
      else
        match handover_receipts technician ls ss with
        | .error e => .error e
        | .ok (ss', ms) => .ok (s :: ss', ms)

/-- Model of apps/orders/models.py `PanierStatus`. -/
inductive PanierStatus
  | DRAFT
  | SUBMITTED
deriving DecidableEq, Repr

/-- Model of apps/orders/models.py `PanierLine`. -/
structure PanierLine where
  article : Article
  quantity : Int
deriving DecidableEq, Repr

/-- Model of apps/orders/models.py `Panier`. -/
structure Panier where
  status : PanierStatus
  lines : List PanierLine
deriving DecidableEq, Repr

/-- Source: `Panier.can_be_submitted`: DRAFT, at least one line, and every
line's article still active. -/
def Panier.can_be_submitted (p : Panier) : Bool :=
  p.status == .DRAFT && !p.lines.isEmpty &&
    p.lines.all fun l => l.article.is_active

/-- The failures of `PanierService.submit_cart`: no DRAFT cart exists, or
`can_be_submitted` is false (the source raises the same
`PanierServiceError("Cart cannot be submitted")` both for an empty cart and
for a cart holding an inactive article). -/
inductive PanierError
  | noActiveCart
  | cartCannotBeSubmitted
deriving DecidableEq, Repr

/-- Source: `Panier.submit` inside `PanierService.submit_cart` (one atomic
unit): re-check `can_be_submitted`, mark the cart SUBMITTED, and create one
SUBMITTED `Demande` with one line per cart line carrying
`qty_requested = line.quantity` (approved and prepared default to 0). -/
def submit_cart (cart? : Option Panier) : Except PanierError (Panier × Demande) :=
  match cart? with
  | none => .error .noActiveCart
  | some cart =>
      if ¬cart.can_be_submitted then .error .cartCannotBeSubmitted
      else
        .ok ({ status := .SUBMITTED, lines := cart.lines },
             { status := .SUBMITTED
               lines := cart.lines.map fun l =>
                 { article := l.article, qty_requested := l.quantity,
                   qty_approved := 0, qty_prepared := 0 } })

/-- Model of apps/orders/models.py `ReservationStatus`. -/
inductive ReservationStatus
  | PENDING
  | APPROVED
  | CANCELLED
deriving DecidableEq, Repr

/-- Model of apps/orders/models.py `Reservation` (status and quantity; the
technician/article keys select the stock row passed to `cancel_reservation`). -/
structure Reservation where
  status : ReservationStatus
  qty_reserved : Int
deriving DecidableEq, Repr

/-- Source: apps/api/views/orders_views.py `cancel_reservation`: an already
CANCELLED reservation is answered without any change; an APPROVED reservation
with a positive quantity first releases `qty_reserved` from the technician's
stock row (which must exist); then the reservation is marked CANCELLED. -/
def cancel_reservation (r : Reservation) (stock? : Option StockLevel) :
    Except StockError (Reservation × Option StockLevel) :=
  if r.status = .CANCELLED then .ok (r, stock?)
  else if r.status = .APPROVED ∧ 0 < r.qty_reserved then
    match stock? with
    | none => .error .noSourceStock
    | some stock =>
        match stock.release_reservation r.qty_reserved with
        | .error e => .error e
        | .ok stock' =>
            .ok ({ status := .CANCELLED, qty_reserved := r.qty_reserved },
                 some stock')
  else
    .ok ({ status := .CANCELLED, qty_reserved := r.qty_reserved }, stock?)

/-- Helper: the exact shape of every successful `transfer_stock` call: the
source row exists, all checks passed, the source was consumed and the
destination incremented, and exactly the two TRANSFER movements were
appended. -/
theorem transfer_stock_ok_shape (ft tt : Profile) (qty : Int)
    (from_stock? to_stock? : Option StockLevel) (ms : List StockMovement)
    (fs' ts' : StockLevel) (ms' : List StockMovement)
    (h : transfer_stock ft tt qty from_stock? to_stock? ms = .ok (fs', ts', ms')) :
    ∃ fstock, from_stock? = some fstock ∧
      ft.role = .TECH ∧ tt.role = .TECH ∧ ft.id ≠ tt.id ∧ 0 < qty ∧
      qty ≤ fstock.available_quantity ∧
      fstock.consume_stock qty = .ok fs' ∧
      ts' = { quantity := (to_stock?.getD { quantity := 0, reserved_qty := 0 }).quantity + qty
              reserved_qty := (to_stock?.getD { quantity := 0, reserved_qty := 0 }).reserved_qty } ∧
      ms' = ms ++
        [{ technician := ft.id, delta := -qty, reason := .TRANSFER,
           balance_after := fs'.quantity },
         { technician := tt.id, delta := qty, reason := .TRANSFER,
           balance_after := ts'.quantity }] := by
  unfold transfer_stock at h
  split at h
  · simp at h
  rename_i hroles
  push_neg at hroles
  split at h
  · simp at h
  rename_i hid
  split at h
  · simp at h
  rename_i hqty
  split at h
  · simp at h
  rename_i fstock
  split at h
  · simp at h
  rename_i havail
  split at h
  · simp at h
  rename_i s2 hcs
  simp only [Except.ok.injEq, Prod.mk.injEq] at h
  obtain ⟨h1, h2, h3⟩ := h
  subst h1
  subst h2
  subst h3
  exact ⟨fstock, rfl, hroles.1, hroles.2, hid, not_le.mp hqty, not_lt.mp havail,
    hcs, rfl, rfl⟩

/-- Helper: `consume_stock` preserves the StockLevel invariant. -/
theorem consume_stock_invariant (s : StockLevel) (qty : Int)
    (hinv : s.invariantHolds) (s' : StockLevel)
    (h : s.consume_stock qty = .ok s') : s'.invariantHolds := by
  unfold StockLevel.consume_stock at h
  split at h
  · simp at h
  · simp only [Except.ok.injEq] at h
    subst h
    simp only [StockLevel.invariantHolds] at hinv ⊢
    split <;> omega

/-- C1 (amended): `available = quantity - reserved_qty` holds by definition,
and the invariant `0 ≤ reserved_qty ≤ quantity` is preserved by issue,
receive, reserve (qty ≥ 0), release (qty ≥ 0), consume and transfer; adjust
keeps `reserved_qty ≥ 0` but re-establishes the full invariant exactly when
the new quantity is at least the reserved quantity — an adjust below
`reserved_qty` breaks it. -/
theorem stock_ledger_invariant (tech : Profile) (st : InvState) (qty new_q : Int)
    (hinv : st.stock.invariantHolds) :
    st.stock.available_quantity = st.stock.quantity - st.stock.reserved_qty ∧
    (∀ st', issue_stock tech qty st = .ok st' → st'.stock.invariantHolds) ∧
    (∀ st', receive_stock tech qty st = .ok st' → st'.stock.invariantHolds) ∧
    (0 ≤ qty → ∀ s', st.stock.reserve_quantity qty = .ok s' → s'.invariantHolds) ∧
    (0 ≤ qty → ∀ s', st.stock.release_reservation qty = .ok s' → s'.invariantHolds) ∧
    (∀ s', st.stock.consume_stock qty = .ok s' → s'.invariantHolds) ∧
    (∀ (ft tt : Profile) (fstock tstock : StockLevel) (ms : List StockMovement)
        (fs' ts' : StockLevel) (ms' : List StockMovement),
      fstock.invariantHolds → tstock.invariantHolds →
      transfer_stock ft tt qty (some fstock) (some tstock) ms = .ok (fs', ts', ms') →
      fs'.invariantHolds ∧ ts'.invariantHolds) ∧
    (∀ st', adjust_stock tech new_q st = .ok st' →
      0 ≤ st'.stock.reserved_qty ∧
      (st'.stock.invariantHolds ↔ st.stock.reserved_qty ≤ new_q)) := by
  refine ⟨rfl, ?_, ?_, ?_, ?_, ?_, ?_, ?_⟩
  · intro st' h
    unfold issue_stock at h
    split at h
    · simp at h
    split at h
    · simp at h
    split at h
    · simp at h
    rcases hcs : st.stock.consume_stock qty with e | s2 <;> rw [hcs] at h
    · simp at h
    · simp only [Except.ok.injEq] at h
      subst h
      exact consume_stock_invariant _ _ hinv _ hcs
  · intro st' h
    unfold receive_stock at h
    split at h
    · simp at h
    split at h
    · simp at h
    simp only [Except.ok.injEq] at h
    subst h
    simp only [StockLevel.invariantHolds] at hinv ⊢
    omega
  · intro hq s' h
    unfold StockLevel.reserve_quantity StockLevel.available_quantity at h
    split at h
    · simp at h
    · simp only [Except.ok.injEq] at h
      subst h
      simp only [StockLevel.invariantHolds] at hinv ⊢
      omega
  · intro hq s' h
    unfold StockLevel.release_reservation at h
    split at h
    · simp at h
    · simp only [Except.ok.injEq] at h
      subst h
      simp only [StockLevel.invariantHolds] at hinv ⊢
      omega
  · intro s' h
    exact consume_stock_invariant _ _ hinv _ h
  · intro ft tt fstock tstock ms fs' ts' ms' hf ht h
    obtain ⟨fstock2, heq, -, -, -, hqpos, -, hcs, hts, -⟩ :=
      transfer_stock_ok_shape ft tt qty (some fstock) (some tstock) ms fs' ts' ms' h
    simp only [Option.some.injEq] at heq
    subst heq
    refine ⟨consume_stock_invariant _ _ hf _ hcs, ?_⟩
    subst hts
    simp only [StockLevel.invariantHolds, Option.getD_some] at ht ⊢
    omega
  · intro st' h
    unfold adjust_stock at h
    dsimp only at h
    split at h
    · simp at h
    split at h
    · simp at h
    simp only [Except.ok.injEq] at h
    subst h
    simp only [StockLevel.invariantHolds] at hinv ⊢
    omega

/-- Witness for C1's amended theorem at a concrete row satisfying the
invariant. -/
theorem stock_ledger_invariant_witness :
    StockLevel.invariantHolds { quantity := 50, reserved_qty := 10 } ∧
    (∀ st', issue_stock { id := 1, role := .TECH } 5
        { stock := { quantity := 50, reserved_qty := 10 }, movements := [] } = .ok st' →
      st'.stock.invariantHolds) := by
  refine ⟨by decide, ?_⟩
  exact (stock_ledger_invariant { id := 1, role := .TECH }
    { stock := { quantity := 50, reserved_qty := 10 }, movements := [] }
    5 0 (by decide)).2.1

/-- C1 counterexample: the row (quantity 10, reserved 5) satisfies the
invariant, `adjust_stock` to the new quantity 2 succeeds, and the resulting
row violates `reserved_qty ≤ quantity` (its available quantity is negative),
refuting the claim that the invariant holds after every adjust. -/
theorem adjust_stock_breaks_invariant :
    StockLevel.invariantHolds { quantity := 10, reserved_qty := 5 } ∧
    adjust_stock { id := 1, role := .ADMIN } 2
        { stock := { quantity := 10, reserved_qty := 5 }, movements := [] } =
      .ok { stock := { quantity := 2, reserved_qty := 5 }
            movements := [{ technician := 1, delta := -8, reason := .ADJUST,
                            balance_after := 2 }] } ∧
    ¬ StockLevel.invariantHolds { quantity := 2, reserved_qty := 5 } ∧
    StockLevel.available_quantity { quantity := 2, reserved_qty := 5 } < 0 := by
  decide

/-- C3: an issue by a technician of a positive quantity fails with the
insufficient-stock error when `qty > available`; otherwise it subtracts `qty`
from `quantity`, subtracts `min(qty, reserved_qty)` from `reserved_qty` when
any stock was reserved, and appends exactly one ISSUE movement with
`delta = -qty` and `balance_after` equal to the new quantity. -/
theorem issue_stock_spec (tech : Profile) (st : InvState) (qty : Int)
    (hrole : tech.role = .TECH) (hq : 0 < qty)
    (hres : 0 ≤ st.stock.reserved_qty) :
    (st.stock.available_quantity < qty →
      issue_stock tech qty st = .error .insufficientStock) ∧
    (qty ≤ st.stock.available_quantity →
      issue_stock tech qty st =
        .ok { stock :=
                { quantity := st.stock.quantity - qty
                  reserved_qty :=
                    if 0 < st.stock.reserved_qty then
                      st.stock.reserved_qty - min qty st.stock.reserved_qty
                    else st.stock.reserved_qty }
              movements := st.movements ++
                [{ technician := tech.id, delta := -qty, reason := .ISSUE,
                   balance_after := st.stock.quantity - qty }] }) := by
  have hrole' : ¬ tech.role ≠ UserRole.TECH := by simp [hrole]
  constructor
  · intro hlt
    unfold issue_stock
    rw [if_neg hrole', if_neg (not_le.mpr hq), if_pos hlt]
  · intro hge
    have hq_le : ¬ st.stock.quantity < qty := by
      simp only [StockLevel.available_quantity] at hge
      omega
    unfold issue_stock
    rw [if_neg hrole', if_neg (not_le.mpr hq), if_neg (not_lt.mpr hge)]
    unfold StockLevel.consume_stock
    rw [if_neg hq_le]

/-- Witness for C3: the spec scenario, StockLevel(qty=50, reserved=0) and
issue of 10 yields quantity 40 and one movement with delta -10 and
balance_after 40. -/
theorem issue_stock_spec_witness :
    issue_stock { id := 1, role := .TECH } 10
        { stock := { quantity := 50, reserved_qty := 0 }, movements := [] } =
      .ok { stock := { quantity := 40, reserved_qty := 0 }
            movements := [{ technician := 1, delta := -10, reason := .ISSUE,
                            balance_after := 40 }] } :=
  (issue_stock_spec { id := 1, role := .TECH }
    { stock := { quantity := 50, reserved_qty := 0 }, movements := [] }
    10 rfl (by decide) (by decide)).2 (by decide)

/-- C4: an issue of more than the available quantity fails with the
insufficient-stock error, and any failing issue leaves the database state
(stock row and movement table) exactly as it was: the enclosing transaction
commits nothing. -/
theorem issue_stock_failure_atomic (tech : Profile) (st : InvState) (qty : Int)
    (hrole : tech.role = .TECH) (hq : 0 < qty)
    (hins : st.stock.available_quantity < qty) :
    issue_stock tech qty st = .error .insufficientStock ∧
    run_atomic (issue_stock tech qty) st = st ∧
    (∀ e, issue_stock tech qty st = .error e →
      run_atomic (issue_stock tech qty) st = st) := by
  have hrole' : ¬ tech.role ≠ UserRole.TECH := by simp [hrole]
  have herr : issue_stock tech qty st = .error .insufficientStock := by
    unfold issue_stock
    rw [if_neg hrole', if_neg (not_le.mpr hq), if_pos hins]
  exact ⟨herr, by unfold run_atomic; rw [herr],
    fun e he => by unfold run_atomic; rw [he]⟩

/-- Witness for C4: issue of 100 against StockLevel(qty=50) fails with the
insufficient-stock error and the state is unchanged. -/
theorem issue_stock_failure_atomic_witness :
    issue_stock { id := 1, role := .TECH } 100
        { stock := { quantity := 50, reserved_qty := 0 }, movements := [] } =
      .error .insufficientStock ∧
    run_atomic (issue_stock { id := 1, role := .TECH } 100)
        { stock := { quantity := 50, reserved_qty := 0 }, movements := [] } =
      { stock := { quantity := 50, reserved_qty := 0 }, movements := [] } :=
  ⟨(issue_stock_failure_atomic { id := 1, role := .TECH }
      { stock := { quantity := 50, reserved_qty := 0 }, movements := [] }
      100 rfl (by decide) (by decide)).1,
   (issue_stock_failure_atomic { id := 1, role := .TECH }
      { stock := { quantity := 50, reserved_qty := 0 }, movements := [] }
      100 rfl (by decide) (by decide)).2.1⟩

/-- C8: cancelling an APPROVED reservation releases `qty_reserved` from the
stock row's reservation (quantity untouched) and marks the reservation
CANCELLED; cancelling a PENDING reservation only marks it CANCELLED; and
cancelling an already CANCELLED reservation changes nothing. -/
theorem cancel_reservation_spec (r : Reservation) (s : StockLevel) :
    (r.status = .CANCELLED → ∀ stock?, cancel_reservation r stock? = .ok (r, stock?)) ∧
    (r.status = .PENDING → ∀ stock?, cancel_reservation r stock? =
      .ok ({ status := .CANCELLED, qty_reserved := r.qty_reserved }, stock?)) ∧
    (r.status = .APPROVED → 0 < r.qty_reserved → r.qty_reserved ≤ s.reserved_qty →
      cancel_reservation r (some s) =
        .ok ({ status := .CANCELLED, qty_reserved := r.qty_reserved },
             some { quantity := s.quantity,
                    reserved_qty := s.reserved_qty - r.qty_reserved })) := by
  refine ⟨?_, ?_, ?_⟩
  · intro hc stock?
    unfold cancel_reservation
    rw [if_pos hc]
  · intro hp stock?
    unfold cancel_reservation
    rw [if_neg (by simp [hp]), if_neg (by simp [hp])]
  · intro ha hq hle
    unfold cancel_reservation
    rw [if_neg (by simp [ha]), if_pos ⟨ha, hq⟩]
    unfold StockLevel.release_reservation
    simp only [if_neg (not_lt.mpr hle)]

/-- Witness for C8: cancelling an APPROVED reservation of 3 against a row
with reserved 5 leaves reserved 2 and quantity 10. -/
theorem cancel_reservation_spec_witness :
    cancel_reservation { status := .APPROVED, qty_reserved := 3 }
        (some { quantity := 10, reserved_qty := 5 }) =
      .ok ({ status := .CANCELLED, qty_reserved := 3 },
           some { quantity := 10, reserved_qty := 2 }) :=
  (cancel_reservation_spec { status := .APPROVED, qty_reserved := 3 }
    { quantity := 10, reserved_qty := 5 }).2.2 rfl (by decide) (by decide)

/-- C10: every successful transfer decrements the source quantity by
exactly `qty`, increments the destination quantity by exactly `qty`,
conserves the sum of the two quantities, and appends exactly two TRANSFER
movements with deltas `-qty` and `+qty`. -/
theorem transfer_stock_conserves (ft tt : Profile) (qty : Int)
    (from_stock? to_stock? : Option StockLevel) (ms : List StockMovement)
    (fs' ts' : StockLevel) (ms' : List StockMovement)
    (h : transfer_stock ft tt qty from_stock? to_stock? ms = .ok (fs', ts', ms')) :
    ∃ fstock, from_stock? = some fstock ∧
      fs'.quantity = fstock.quantity - qty ∧
      ts'.quantity = (to_stock?.getD { quantity := 0, reserved_qty := 0 }).quantity + qty ∧
      fs'.quantity + ts'.quantity =
        fstock.quantity + (to_stock?.getD { quantity := 0, reserved_qty := 0 }).quantity ∧
      ms' = ms ++
        [{ technician := ft.id, delta := -qty, reason := .TRANSFER,
           balance_after := fs'.quantity },
         { technician := tt.id, delta := qty, reason := .TRANSFER,
           balance_after := ts'.quantity }] := by
  obtain ⟨fstock, heq, -, -, -, -, -, hcs, hts, hms⟩ :=
    transfer_stock_ok_shape ft tt qty from_stock? to_stock? ms fs' ts' ms' h
  have hfq : fs'.quantity = fstock.quantity - qty := by
    unfold StockLevel.consume_stock at hcs
    split at hcs
    · simp at hcs
    · simp only [Except.ok.injEq] at hcs
      subst hcs
      rfl
  have htq : ts'.quantity =
      (to_stock?.getD { quantity := 0, reserved_qty := 0 }).quantity + qty := by
    rw [hts]
  exact ⟨fstock, heq, hfq, htq, by omega, hms⟩

/-- Witness for C10 at a concrete successful transfer of 13 from a row
holding 20 to a row holding 3. -/
theorem transfer_stock_conserves_witness :
    ∃ fstock, (some { quantity := 20, reserved_qty := 4 } : Option StockLevel) = some fstock ∧
      (7 : Int) = fstock.quantity - 13 ∧
      (16 : Int) = ((some { quantity := 3, reserved_qty := 0 } : Option StockLevel).getD
        { quantity := 0, reserved_qty := 0 }).quantity + 13 ∧
      (7 : Int) + 16 = fstock.quantity +
        ((some { quantity := 3, reserved_qty := 0 } : Option StockLevel).getD
          { quantity := 0, reserved_qty := 0 }).quantity ∧
      ([{ technician := 1, delta := -13, reason := .TRANSFER, balance_after := 7 },
        { technician := 2, delta := 13, reason := .TRANSFER, balance_after := 16 }]
          : List StockMovement) = [] ++
        [{ technician := 1, delta := -13, reason := .TRANSFER, balance_after := 7 },
         { technician := 2, delta := 13, reason := .TRANSFER, balance_after := 16 }] := by
  have h := transfer_stock_conserves { id := 1, role := .TECH } { id := 2, role := .TECH }
    13 (some { quantity := 20, reserved_qty := 4 }) (some { quantity := 3, reserved_qty := 0 })
    [] { quantity := 7, reserved_qty := 0 } { quantity := 16, reserved_qty := 0 }
    [{ technician := 1, delta := -13, reason := .TRANSFER, balance_after := 7 },
     { technician := 2, delta := 13, reason := .TRANSFER, balance_after := 16 }]
    (by decide)
  exact h

/-- Helper: a freshly built chain has one record per logged payload. -/
theorem build_from_length (h : HashFn) (prev : String) (ds : List EventData) :
    (build_from h prev ds).length = ds.length := by
  induction ds generalizing prev with
  | nil => rfl
  | cons d ds ih => simp [build_from, ih]

/-- Helper: unrolling the fold of `log_event` into `build_from`. -/
theorem foldl_log_event (h : HashFn) (ds : List EventData) :
    ∀ acc, ds.foldl (log_event h) acc = acc ++ build_from h (last_hash acc) ds := by
  induction ds with
  | nil => intro acc; simp [build_from]
  | cons d ds ih =>
      intro acc
      rw [List.foldl_cons, ih (log_event h acc d)]
      have hlh : last_hash (log_event h acc d) = h d (last_hash acc) := by
        simp [log_event, last_hash, List.getLast?_concat]
      rw [hlh]
      simp [log_event, build_from, List.append_assoc]

/-- Helper: `build_chain` equals the recursive `build_from` from the empty
previous hash. -/
theorem build_chain_eq (h : HashFn) (ds : List EventData) :
    build_chain h ds = build_from h "" ds := by
  unfold build_chain
  rw [foldl_log_event h ds []]
  rfl

/-- Helper: every record of a freshly built chain passes `verify_hash`. -/
theorem build_from_verify (h : HashFn) :
    ∀ (ds : List EventData) (prev : String), ∀ e ∈ build_from h prev ds,
      e.verify_hash_with h = true := by
  intro ds
  induction ds with
  | nil => intro prev e he; simp [build_from] at he
  | cons d ds ih =>
      intro prev e he
      simp only [build_from, List.mem_cons] at he
      rcases he with rfl | he
      · simp [EventLog.verify_hash_with]
      · exact ih (h d prev) e he

/-- Helper: no hash-mismatch errors are reported over records that all
verify. -/
theorem hash_errors_from_ok (h : HashFn) :
    ∀ (L : List EventLog) (i : Nat), (∀ e ∈ L, e.verify_hash_with h = true) →
      hash_errors_from h i L = [] := by
  intro L
  induction L with
  | nil => intro i _; rfl
  | cons e L ih =>
      intro i hall
      unfold hash_errors_from
      rw [if_pos (hall e (by simp)), List.nil_append]
      exact ih (i + 1) fun e2 he2 => hall e2 (by simp [he2])

/-- Helper: the chain-link check only reads the predecessor's stored
`record_hash`. -/
theorem link_errors_from_congr :
    ∀ (L : List EventLog) (i : Nat) (e e' : EventLog),
      e.record_hash = e'.record_hash →
      link_errors_from i e L = link_errors_from i e' L := by
  intro L i e e' hre
  cases L with
  | nil => rfl
  | cons x L =>
      unfold link_errors_from
      rw [hre]

/-- Helper: a freshly built chain segment has no chain-link errors. -/
theorem link_errors_from_build (h : HashFn) :
    ∀ (ds : List EventData) (i : Nat) (e : EventLog),
      link_errors_from i e (build_from h e.record_hash ds) = [] := by
  intro ds
  induction ds with
  | nil => intro i e; rfl
  | cons d ds ih =>
      intro i e
      unfold build_from link_errors_from
      rw [if_pos (by simp), List.nil_append]
      exact ih (i + 1) { data := d, prev_hash := e.record_hash,
                         record_hash := h d e.record_hash }

/-- Helper: a freshly built chain has no chain-link errors. -/
theorem link_errors_build (h : HashFn) (ds : List EventData) :
    link_errors (build_from h "" ds) = [] := by
  cases ds with
  | nil => rfl
  | cons d ds =>
      simp only [build_from, link_errors]
      rw [if_pos (by simp), List.nil_append]
      exact link_errors_from_build h ds 1 { data := d, prev_hash := "",
                                            record_hash := h d "" }

/-- Helper: `verify_audit_chain` on a freshly built chain of N events
reports valid with N verified records and no errors. -/
theorem verify_fresh_chain (h : HashFn) (ds : List EventData) :
    verify_audit_chain h (build_chain h ds) =
      { valid := true, total_records := ds.length,
        verified_records := ds.length, errors := [] } := by
  rw [build_chain_eq]
  cases ds with
  | nil => rfl
  | cons d ds =>
      have hall := build_from_verify h (d :: ds) ""
      unfold verify_audit_chain
      rw [if_neg (by simp [build_from])]
      rw [hash_errors_from_ok h _ 0 hall, link_errors_build h (d :: ds)]
      simp [build_from_length, List.countP_eq_length.mpr hall]

/-- Helper: tampering one record does not change the number of records. -/
theorem tamper_data_length :
    ∀ (L : List EventLog) (k : Nat) (d : EventData),
      (tamper_data L k d).length = L.length := by
  intro L
  induction L with
  | nil => intro k d; rfl
  | cons e L ih =>
      intro k d
      cases k with
      | zero => rfl
      | succ k => simp [tamper_data, ih]

/-- Helper: the tampered record keeps its stored `prev_hash` and
`record_hash` while its payload is replaced. -/
theorem tamper_data_get? :
    ∀ (L : List EventLog) (k : Nat) (d : EventData) (ek : EventLog),
      L.get? k = some ek →
      (tamper_data L k d).get? k =
        some { data := d, prev_hash := ek.prev_hash, record_hash := ek.record_hash } := by
  intro L
  induction L with
  | nil => intro k d ek hk; simp at hk
  | cons x L ih =>
      intro k d ek hk
      cases k with
      | zero =>
          simp only [List.get?] at hk
          injection hk with hk
          subst hk
          rfl
      | succ k =>
          simp only [List.get?] at hk
          simp only [tamper_data, List.get?]
          exact ih k d ek hk

/-- Helper: tampering a record's payload leaves every chain-link check
unchanged, because the links compare only the stored hash fields. -/
theorem link_errors_from_tamper :
    ∀ (L : List EventLog) (k : Nat) (d : EventData) (i : Nat) (e : EventLog),
      link_errors_from i e (tamper_data L k d) = link_errors_from i e L := by
  intro L
  induction L with
  | nil => intro k d i e; rfl
  | cons x L ih =>
      intro k d i e
      cases k with
      | zero =>
          simp only [tamper_data, link_errors_from]
          rw [link_errors_from_congr L (i + 1)
            { data := d, prev_hash := x.prev_hash, record_hash := x.record_hash } x rfl]
      | succ k =>
          simp only [tamper_data, link_errors_from]
          rw [ih k d (i + 1) x]

/-- Helper: the full chain-link pass is unchanged by a payload tamper. -/
theorem link_errors_tamper :
    ∀ (L : List EventLog) (k : Nat) (d : EventData),
      link_errors (tamper_data L k d) = link_errors L := by
  intro L k d
  cases L with
  | nil => rfl
  | cons x L =>
      cases k with
      | zero =>
          simp only [tamper_data, link_errors]
          rw [link_errors_from_congr L 1
            { data := d, prev_hash := x.prev_hash, record_hash := x.record_hash } x rfl]
      | succ k =>
          simp only [tamper_data, link_errors]
          rw [link_errors_from_tamper L k d 1 x]

/-- Helper: tampering record k of an all-verifying list yields exactly one
hash-mismatch error, at position k. -/
theorem hash_errors_from_tamper (h : HashFn) (d : EventData) :
    ∀ (L : List EventLog) (k i : Nat) (ek : EventLog),
      (∀ e ∈ L, e.verify_hash_with h = true) →
      L.get? k = some ek →
      h d ek.prev_hash ≠ ek.record_hash →
      hash_errors_from h i (tamper_data L k d) = [.hashMismatch (i + k)] := by
  intro L
  induction L with
  | nil => intro k i ek _ hk; simp at hk
  | cons x L ih =>
      intro k i ek hall hk hne
      cases k with
      | zero =>
          simp only [List.get?] at hk
          injection hk with hk
          subst hk
          simp only [tamper_data, hash_errors_from]
          rw [if_neg (by simp [EventLog.verify_hash_with, hne])]
          rw [hash_errors_from_ok h L (i + 1) fun e2 he2 => hall e2 (by simp [he2])]
          simp
      | succ k =>
          simp only [List.get?] at hk
          simp only [tamper_data, hash_errors_from]
          rw [if_pos (hall x (by simp)), List.nil_append]
          rw [ih k (i + 1) ek (fun e2 he2 => hall e2 (by simp [he2])) hk hne]
          have : i + 1 + k = i + (k + 1) := by omega
          rw [this]

/-- Helper: after tampering record k of an all-verifying list, all but one
record still verify. -/
theorem countP_tamper (h : HashFn) (d : EventData) :
    ∀ (L : List EventLog) (k : Nat) (ek : EventLog),
      (∀ e ∈ L, e.verify_hash_with h = true) →
      L.get? k = some ek →
      h d ek.prev_hash ≠ ek.record_hash →
      (tamper_data L k d).countP (EventLog.verify_hash_with h) = L.length - 1 := by
  intro L
  induction L with
  | nil => intro k ek _ hk; simp at hk
  | cons x L ih =>
      intro k ek hall hk hne
      cases k with
      | zero =>
          simp only [List.get?] at hk
          injection hk with hk
          subst hk
          simp only [tamper_data]
          rw [List.countP_cons]
          rw [List.countP_eq_length.mpr fun e2 he2 => hall e2 (by simp [he2])]
          simp [EventLog.verify_hash_with, hne]
      | succ k =>
          simp only [List.get?] at hk
          have hklt : k < L.length := by
            by_contra hh
            push_neg at hh
            rw [List.get?_eq_none.mpr hh] at hk
            cases hk
          simp only [tamper_data]
          rw [List.countP_cons]
          rw [ih k ek (fun e2 he2 => hall e2 (by simp [he2])) hk hne]
          rw [if_pos (hall x (by simp))]
          simp only [List.length_cons]
          omega

/-- C2 (amended): a freshly built chain of N audit events verifies as valid
with N verified records; mutating one record's payload without updating its
stored hash makes `verify_hash` fail for that record, and `verify_chain`
then reports invalid with exactly that one hash-mismatch error — every other
record still verifies and no chain-link error is reported, because each
link compares `prev_hash` against the stored (unchanged) `record_hash`. -/
theorem audit_chain_tamper_detection (h : HashFn) (ds : List EventData)
    (k : Nat) (d' : EventData) (ek : EventLog)
    (hk : (build_chain h ds).get? k = some ek)
    (hne : h d' ek.prev_hash ≠ ek.record_hash) :
    verify_audit_chain h (build_chain h ds) =
      { valid := true, total_records := ds.length,
        verified_records := ds.length, errors := [] } ∧
    (tamper_data (build_chain h ds) k d').get? k =
      some { data := d', prev_hash := ek.prev_hash, record_hash := ek.record_hash } ∧
    EventLog.verify_hash_with h
      { data := d', prev_hash := ek.prev_hash, record_hash := ek.record_hash } = false ∧
    verify_audit_chain h (tamper_data (build_chain h ds) k d') =
      { valid := false, total_records := ds.length,
        verified_records := ds.length - 1, errors := [.hashMismatch k] } := by
  have hall : ∀ e ∈ build_chain h ds, e.verify_hash_with h = true := by
    rw [build_chain_eq]
    exact build_from_verify h ds ""
  have hlen : (build_chain h ds).length = ds.length := by
    rw [build_chain_eq]
    exact build_from_length h "" ds
  have hklt : k < (build_chain h ds).length := by
    by_contra hh
    push_neg at hh
    rw [List.get?_eq_none.mpr hh] at hk
    cases hk
  refine ⟨verify_fresh_chain h ds, tamper_data_get? _ k d' ek hk, ?_, ?_⟩
  · simp [EventLog.verify_hash_with, hne]
  · have hne2 : ¬ (tamper_data (build_chain h ds) k d').isEmpty = true := by
      rw [List.isEmpty_iff_length_eq_zero, tamper_data_length]
      omega
    unfold verify_audit_chain
    rw [if_neg hne2]
    rw [hash_errors_from_tamper h d' (build_chain h ds) k 0 ek hall hk hne]
    rw [link_errors_tamper]
    have hlink : link_errors (build_chain h ds) = [] := by
      rw [build_chain_eq]
      exact link_errors_build h ds
    rw [hlink, countP_tamper h d' (build_chain h ds) k ek hall hk hne,
      tamper_data_length, hlen]
    simp

/-- Witness for C2's amended theorem: tampering the first of three demo
records yields an invalid report with two verified records and the single
hash-mismatch error. -/
theorem audit_chain_tamper_detection_witness :
    verify_audit_chain demoHash
        (tamper_data (build_chain demoHash demoData) 0 demoTampered) =
      { valid := false, total_records := 3, verified_records := 2,
        errors := [.hashMismatch 0] } := by
  have h := audit_chain_tamper_detection demoHash demoData 0 demoTampered
    { data := { actor_user_id := 1, entity_type := "Panier", entity_id := "c1",
                action := "create_cart", before_data := none,
                after_data := some "a1", timestamp := 10, ip_address := none,
                user_agent := "", request_id := "" },
      prev_hash := "", record_hash := "create_cart#110" }
    (by decide) (by decide)
  exact h.2.2.2

/-- C2 counterexample: with the three demo events, mutating record 0's
payload (keeping its stored hash) makes the chain invalid with an error for
record 0 only; records 1 and 2 still pass `verify_hash` and no error is
reported for them, refuting the claim that `verify_chain` fails for every
subsequent record. -/
theorem audit_chain_no_cascade_counterexample :
    (verify_audit_chain demoHash (build_chain demoHash demoData)).valid = true ∧
    (verify_audit_chain demoHash
        (tamper_data (build_chain demoHash demoData) 0 demoTampered)).valid = false ∧
    EventLog.verify_hash_with demoHash
      ((tamper_data (build_chain demoHash demoData) 0 demoTampered).getD 0
        { data := demoTampered, prev_hash := "", record_hash := "" }) = false ∧
    (verify_audit_chain demoHash
        (tamper_data (build_chain demoHash demoData) 0 demoTampered)).errors =
      [ChainErr.hashMismatch 0] ∧
    (verify_audit_chain demoHash
        (tamper_data (build_chain demoHash demoData) 0 demoTampered)).verified_records = 2 ∧
    (∀ e ∈ (tamper_data (build_chain demoHash demoData) 0 demoTampered).drop 1,
      e.verify_hash_with demoHash = true) := by
  decide

/-- Helper: setting one list position leaves the others unchanged. -/
theorem list_get?_set_ne {α : Type} :
    ∀ (l : List α) (i j : Nat) (a : α), i ≠ j →
      (l.set i a).get? j = l.get? j := by
  intro l
  induction l with
  | nil => intro i j a _; rfl
  | cons x l ih =>
      intro i j a hij
      cases i with
      | zero =>
          cases j with
          | zero => exact absurd rfl hij
          | succ j => rfl
      | succ i =>
          cases j with
          | zero => rfl
          | succ j =>
              simp only [List.set, List.get?]
              exact ih i j a (by omega)

/-- Helper: setting an occupied list position stores the new element. -/
theorem list_get?_set_self {α : Type} :
    ∀ (l : List α) (i : Nat) (a x : α), l.get? i = some x →
      (l.set i a).get? i = some a := by
  intro l
  induction l with
  | nil => intro i a x h; simp at h
  | cons y l ih =>
      intro i a x h
      cases i with
      | zero => rfl
      | succ i =>
          simp only [List.get?] at h
          simp only [List.set, List.get?]
          exact ih i a x h

/-- Helper: the approval loop succeeds when every referenced line exists
and every approved quantity is within `[0, qty_requested]`. -/
theorem apply_line_approvals_ok :
    ∀ (approvals : List (Nat × Int)) (lines : List DemandeLine),
      (∀ p ∈ approvals, ∃ line, lines.get? p.1 = some line ∧
        0 ≤ p.2 ∧ p.2 ≤ line.qty_requested) →
      ∃ lines', apply_line_approvals lines approvals = .ok lines' := by
  intro approvals
  induction approvals with
  | nil => intro lines _; exact ⟨lines, rfl⟩
  | cons p rest ih =>
      obtain ⟨i, q⟩ := p
      intro lines hvalid
      obtain ⟨line, hline, h0, h1⟩ := hvalid (i, q) (by simp)
      simp only [apply_line_approvals, hline]
      rw [if_neg (not_lt.mpr h0), if_neg (not_lt.mpr h1)]
      apply ih
      intro p hp
      obtain ⟨l0, hl0, hp0, hp1⟩ := hvalid p (List.mem_cons_of_mem _ hp)
      by_cases hpi : p.1 = i
      · rw [hpi] at hl0
        rw [hline] at hl0
        injection hl0 with hl0
        subst hl0
        exact ⟨{ line with qty_approved := q },
          by rw [hpi]; exact list_get?_set_self lines i _ line hline, hp0, hp1⟩
      · exact ⟨l0,
          by rw [list_get?_set_ne lines i p.1 _ fun hc => hpi hc.symm]; exact hl0,
          hp0, hp1⟩

/-- Helper: the approval loop keeps every `qty_approved` non-negative. -/
theorem apply_line_approvals_nonneg :
    ∀ (approvals : List (Nat × Int)) (lines lines' : List DemandeLine),
      (∀ l ∈ lines, 0 ≤ l.qty_approved) →
      (∀ p ∈ approvals, 0 ≤ p.2) →
      apply_line_approvals lines approvals = .ok lines' →
      ∀ l ∈ lines', 0 ≤ l.qty_approved := by
  intro approvals
  induction approvals with
  | nil =>
      intro lines lines' hl _ h
      simp only [apply_line_approvals, Except.ok.injEq] at h
      subst h
      exact hl
  | cons p rest ih =>
      obtain ⟨i, q⟩ := p
      intro lines lines' hl hnn h
      simp only [apply_line_approvals] at h
      rcases hget : lines.get? i with _ | line
      · rw [hget] at h
        simp at h
      · simp only [hget] at h
        split at h
        · simp at h
        split at h
        · simp at h
        refine ih (lines.set i { line with qty_approved := q }) lines' ?_
          (fun p hp => hnn p (List.mem_cons_of_mem _ hp)) h
        intro l hm
        rcases List.mem_or_eq_of_mem_set hm with hm' | rfl
        · exact hl l hm'
        · exact hnn (i, q) (by simp)

/-- Helper: the approval loop rejects any negative or above-requested
approval with the corresponding validation error. -/
theorem apply_line_approvals_invalid :
    ∀ (approvals : List (Nat × Int)) (lines : List DemandeLine),
      (∀ p ∈ approvals, p.1 < lines.length) →
      (∃ p ∈ approvals, p.2 < 0 ∨
        ∃ line, lines.get? p.1 = some line ∧ line.qty_requested < p.2) →
      ∃ e, apply_line_approvals lines approvals = .error e ∧
        (e = .negativeApproval ∨ e = .exceedsRequested) := by
  intro approvals
  induction approvals with
  | nil => intro lines _ hbad; simp at hbad
  | cons p rest ih =>
      obtain ⟨i, q⟩ := p
      intro lines hidx hbad
      have hilt : i < lines.length := hidx (i, q) (by simp)
      obtain ⟨line, hline⟩ : ∃ line, lines.get? i = some line := by
        rcases hg : lines.get? i with _ | line
        · rw [List.get?_eq_none] at hg
          omega
        · exact ⟨line, rfl⟩
      simp only [apply_line_approvals, hline]
      by_cases hq0 : q < 0
      · rw [if_pos hq0]
        exact ⟨.negativeApproval, rfl, Or.inl rfl⟩
      · rw [if_neg hq0]
        by_cases hqr : line.qty_requested < q
        · rw [if_pos hqr]
          exact ⟨.exceedsRequested, rfl, Or.inr rfl⟩
        · rw [if_neg hqr]
          apply ih (lines.set i { line with qty_approved := q })
          · intro p hp
            rw [List.length_set]
            exact hidx p (List.mem_cons_of_mem _ hp)
          · obtain ⟨p, hp, hv⟩ := hbad
            rcases List.mem_cons.mp hp with rfl | hp'
            · rcases hv with hv | ⟨l0, hl0, hv⟩
              · exact absurd hv hq0
              · rw [hline] at hl0
                injection hl0 with hl0
                subst hl0
                exact absurd hv hqr
            · refine ⟨p, hp', ?_⟩
              rcases hv with hv | ⟨l0, hl0, hv⟩
              · exact Or.inl hv
              · right
                by_cases hpi : p.1 = i
                · rw [hpi] at hl0
                  rw [hline] at hl0
                  injection hl0 with hl0
                  subst hl0
                  exact ⟨{ line with qty_approved := q },
                    by rw [hpi]; exact list_get?_set_self lines i _ line hline, hv⟩
                · exact ⟨l0,
                    by rw [list_get?_set_ne lines i p.1 _ fun hc => hpi hc.symm]; exact hl0,
                    hv⟩

/-- C5: on a SUBMITTED demand, partial approval with per-line quantities in
`[0, qty_requested]` succeeds and the resulting status is APPROVED iff every
line is fully approved, PARTIAL iff not all lines are fully approved but the
total approved quantity is positive, and REFUSED iff the total approved
quantity is zero; any approval below 0 or above the requested quantity is
rejected with a validation error; and the spec scenario (7 of 10 and 0 of 5)
yields PARTIAL with per-line approvals 7 and 0. -/
theorem approve_demand_partially_spec (is_admin : Bool) (d : Demande)
    (approvals : List (Nat × Int))
    (hadmin : is_admin = true) (hsub : d.status = .SUBMITTED)
    (hnn0 : ∀ l ∈ d.lines, 0 ≤ l.qty_approved) :
    ((∀ p ∈ approvals, ∃ line, d.lines.get? p.1 = some line ∧
        0 ≤ p.2 ∧ p.2 ≤ line.qty_requested) →
      ∃ d', approve_demand_partially is_admin d approvals = .ok d' ∧
        apply_line_approvals d.lines approvals = .ok d'.lines ∧
        (d'.status = .APPROVED ↔ d'.is_fully_approved = true) ∧
        (d'.status = .PARTIAL ↔
          d'.is_fully_approved = false ∧ 0 < d'.total_approved_quantity) ∧
        (d'.status = .REFUSED ↔
          d'.is_fully_approved = false ∧ d'.total_approved_quantity = 0)) ∧
    ((∀ p ∈ approvals, p.1 < d.lines.length) →
     (∃ p ∈ approvals, p.2 < 0 ∨
        ∃ line, d.lines.get? p.1 = some line ∧ line.qty_requested < p.2) →
      ∃ e, approve_demand_partially is_admin d approvals = .error e ∧
        (e = .negativeApproval ∨ e = .exceedsRequested)) ∧
    approve_demand_partially true
        { status := .SUBMITTED
          lines := [{ article := { id := 1, is_active := true }, qty_requested := 10,
                      qty_approved := 0, qty_prepared := 0 },
                    { article := { id := 2, is_active := true }, qty_requested := 5,
                      qty_approved := 0, qty_prepared := 0 }] }
        [(0, 7), (1, 0)] =
      .ok { status := .PARTIAL
            lines := [{ article := { id := 1, is_active := true }, qty_requested := 10,
                        qty_approved := 7, qty_prepared := 0 },
                      { article := { id := 2, is_active := true }, qty_requested := 5,
                        qty_approved := 0, qty_prepared := 0 }] } := by
  have hnadmin : ¬ ¬ is_admin = true := by simp [hadmin]
  have hnsub : ¬ d.status ≠ DemandeStatus.SUBMITTED := by simp [hsub]
  refine ⟨?_, ?_, by decide⟩
  · intro hvalid
    obtain ⟨lines', happ⟩ := apply_line_approvals_ok approvals d.lines hvalid
    have hnn' : ∀ l ∈ lines', 0 ≤ l.qty_approved :=
      apply_line_approvals_nonneg approvals d.lines lines' hnn0
        (fun p hp => by obtain ⟨-, -, h0, -⟩ := hvalid p hp; exact h0) happ
    have htot : 0 ≤ ((lines'.map fun l => l.qty_approved).sum) := by
      apply List.sum_nonneg
      intro x hx
      obtain ⟨l, hl, rfl⟩ := List.mem_map.mp hx
      exact hnn' l hl
    refine ⟨{ status := if (Demande.mk d.status lines').is_fully_approved then .APPROVED
                        else if 0 < (Demande.mk d.status lines').total_approved_quantity then .PARTIAL
                        else .REFUSED
              lines := lines' }, ?_, happ, ?_, ?_, ?_⟩
    · unfold approve_demand_partially
      rw [if_neg hnadmin, if_neg hnsub, happ]
    · split
      · simp_all [Demande.is_fully_approved]
      · split
        · simp_all [Demande.is_fully_approved]
        · simp_all [Demande.is_fully_approved]
    · split
      · simp_all [Demande.is_fully_approved, Demande.total_approved_quantity]
      · split
        · simp_all [Demande.is_fully_approved, Demande.total_approved_quantity]
        · simp_all [Demande.is_fully_approved, Demande.total_approved_quantity]
    · split
      · simp_all [Demande.is_fully_approved, Demande.total_approved_quantity]
      · split
        · simp_all [Demande.is_fully_approved, Demande.total_approved_quantity]
          omega
        · simp_all [Demande.is_fully_approved, Demande.total_approved_quantity]
          omega
  · intro hidx hbad
    obtain ⟨e, happ, he⟩ := apply_line_approvals_invalid approvals d.lines hidx hbad
    refine ⟨e, ?_, he⟩
    unfold approve_demand_partially
    rw [if_neg hnadmin, if_neg hnsub, happ]

/-- Witness for C5 at the spec scenario approvals. -/
theorem approve_demand_partially_spec_witness :
    ∃ d', approve_demand_partially true
        { status := .SUBMITTED
          lines := [{ article := { id := 1, is_active := true }, qty_requested := 10,
                      qty_approved := 0, qty_prepared := 0 },
                    { article := { id := 2, is_active := true }, qty_requested := 5,
                      qty_approved := 0, qty_prepared := 0 }] }
        [(0, 7), (1, 0)] = .ok d' ∧
      apply_line_approvals
          [{ article := { id := 1, is_active := true }, qty_requested := 10,
             qty_approved := 0, qty_prepared := 0 },
           { article := { id := 2, is_active := true }, qty_requested := 5,
             qty_approved := 0, qty_prepared := 0 }]
          [(0, 7), (1, 0)] = .ok d'.lines ∧
      (d'.status = .APPROVED ↔ d'.is_fully_approved = true) ∧
      (d'.status = .PARTIAL ↔
        d'.is_fully_approved = false ∧ 0 < d'.total_approved_quantity) ∧
      (d'.status = .REFUSED ↔
        d'.is_fully_approved = false ∧ d'.total_approved_quantity = 0) :=
  (approve_demand_partially_spec true
    { status := .SUBMITTED
      lines := [{ article := { id := 1, is_active := true }, qty_requested := 10,
                  qty_approved := 0, qty_prepared := 0 },
                { article := { id := 2, is_active := true }, qty_requested := 5,
                  qty_approved := 0, qty_prepared := 0 }] }
    [(0, 7), (1, 0)] rfl rfl (by decide)).1 (by
      intro p hp
      simp only [List.mem_cons, List.not_mem_nil, or_false] at hp
      rcases hp with rfl | rfl
      · exact ⟨_, rfl, by decide, by decide⟩
      · exact ⟨_, rfl, by decide, by decide⟩)

/-- Helper: preparing one line reserves `min(qty_approved, available)` and
records it as `qty_prepared`; lines with no approved quantity are left
untouched. -/
theorem prepare_line_spec (l : DemandeLine) (s : StockLevel)
    (hinv : s.invariantHolds) :
    (0 < l.qty_approved →
      prepare_line l s = .ok
        ({ l with qty_prepared := min l.qty_approved s.available_quantity },
         { quantity := s.quantity,
           reserved_qty := s.reserved_qty + min l.qty_approved s.available_quantity })) ∧
    (l.qty_approved ≤ 0 → prepare_line l s = .ok (l, s)) := by
  have havail : 0 ≤ s.available_quantity := by
    simp only [StockLevel.invariantHolds] at hinv
    simp only [StockLevel.available_quantity]
    omega
  constructor
  · intro hqa
    unfold prepare_line
    rw [if_neg (not_le.mpr hqa)]
    by_cases hle : l.qty_approved ≤ s.available_quantity
    · rw [if_pos hle]
      unfold StockLevel.reserve_quantity
      rw [if_neg (not_lt.mpr hle)]
      rw [min_eq_left hle]
    · rw [if_neg hle]
      push_neg at hle
      by_cases hpos : 0 < s.available_quantity
      · rw [if_pos hpos]
        unfold StockLevel.reserve_quantity
        rw [if_neg (lt_irrefl _)]
        rw [min_eq_right hle.le]
      · rw [if_neg hpos]
        have h0 : s.available_quantity = 0 := le_antisymm (not_lt.mp hpos) havail
        rw [h0, min_eq_right hqa.le]
        simp
  · intro hqa
    unfold prepare_line
    rw [if_pos hqa]

/-- Helper: the preparation loop succeeds on invariant-satisfying rows and
acts pointwise as `prepare_line`. -/
theorem prepare_lines_spec :
    ∀ (lines : List DemandeLine) (stocks : List StockLevel),
      lines.length = stocks.length →
      (∀ s ∈ stocks, s.invariantHolds) →
      ∃ lines' stocks', prepare_lines lines stocks = .ok (lines', stocks') ∧
        lines'.length = lines.length ∧ stocks'.length = stocks.length ∧
        (∀ i l s, lines.get? i = some l → stocks.get? i = some s →
          ∃ l' s', lines'.get? i = some l' ∧ stocks'.get? i = some s' ∧
            (0 < l.qty_approved →
              l' = { l with qty_prepared := min l.qty_approved s.available_quantity } ∧
              s' = { quantity := s.quantity,
                     reserved_qty :=
                       s.reserved_qty + min l.qty_approved s.available_quantity }) ∧
            (l.qty_approved ≤ 0 → l' = l ∧ s' = s)) := by
  intro lines
  induction lines with
  | nil =>
      intro stocks hlen hinv
      cases stocks with
      | nil =>
          refine ⟨[], [], rfl, rfl, rfl, ?_⟩
          intro i l s hl _
          simp at hl
      | cons s ss => simp at hlen
  | cons l ls ih =>
      intro stocks hlen hinv
      cases stocks with
      | nil => simp at hlen
      | cons s ss =>
          have hinvs : s.invariantHolds := hinv s (by simp)
          obtain ⟨ls', ss', hrec, hl1, hl2, hpt⟩ := ih ss (by simpa using hlen)
            fun s2 hs2 => hinv s2 (by simp [hs2])
          by_cases hqa : 0 < l.qty_approved
          · obtain ⟨hok, -⟩ := prepare_line_spec l s hinvs
            refine ⟨{ l with qty_prepared := min l.qty_approved s.available_quantity } :: ls',
              { quantity := s.quantity,
                reserved_qty := s.reserved_qty + min l.qty_approved s.available_quantity } :: ss',
              ?_, by simp [hl1], by simp [hl2], ?_⟩
            · simp only [prepare_lines]
              rw [hok hqa, hrec]
            · intro i l0 s0 hl0 hs0
              cases i with
              | zero =>
                  simp only [List.get?] at hl0 hs0
                  injection hl0 with hl0
                  injection hs0 with hs0
                  subst hl0
                  subst hs0
                  exact ⟨_, _, rfl, rfl, fun _ => ⟨rfl, rfl⟩,
                    fun hc => absurd hc (not_le.mpr hqa)⟩
              | succ i =>
                  simp only [List.get?] at hl0 hs0 ⊢
                  exact hpt i l0 s0 hl0 hs0
          · push_neg at hqa
            obtain ⟨-, hok⟩ := prepare_line_spec l s hinvs
            refine ⟨l :: ls', s :: ss', ?_, by simp [hl1], by simp [hl2], ?_⟩
            · simp only [prepare_lines]
              rw [hok hqa, hrec]
            · intro i l0 s0 hl0 hs0
              cases i with
              | zero =>
                  simp only [List.get?] at hl0 hs0
                  injection hl0 with hl0
                  injection hs0 with hs0
                  subst hl0
                  subst hs0
                  exact ⟨_, _, rfl, rfl, fun hc => absurd hc (not_lt.mpr hqa),
                    fun _ => ⟨rfl, rfl⟩⟩
              | succ i =>
                  simp only [List.get?] at hl0 hs0 ⊢
                  exact hpt i l0 s0 hl0 hs0

/-- C6: prepare fails unless the demand is APPROVED or PARTIAL with a
positive total approved quantity; on success it transitions the demand to
PREPARED and, for each line with `qty_approved > 0`, reserves
`min(qty_approved, available)` on the technician's stock row and sets
`qty_prepared` to exactly that amount, so `qty_prepared ≤ qty_approved`
always and under-preparation raises no error. -/
theorem prepare_demand_spec (is_admin : Bool) (d : Demande) (stocks : List StockLevel)
    (hadmin : is_admin = true)
    (hlen : d.lines.length = stocks.length)
    (hinv : ∀ s ∈ stocks, s.invariantHolds)
    (hnn : ∀ l ∈ d.lines, 0 ≤ l.qty_approved)
    (hp0 : ∀ l ∈ d.lines, l.qty_prepared = 0) :
    (d.can_be_prepared = false →
      prepare_demand is_admin d stocks = .error .cannotBePrepared) ∧
    (d.can_be_prepared = true →
      ∃ d' stocks', prepare_demand is_admin d stocks = .ok (d', stocks') ∧
        d'.status = .PREPARED ∧
        d'.lines.length = d.lines.length ∧ stocks'.length = stocks.length ∧
        (∀ i l s, d.lines.get? i = some l → stocks.get? i = some s →
          ∃ l' s', d'.lines.get? i = some l' ∧ stocks'.get? i = some s' ∧
            l'.qty_prepared ≤ l.qty_approved ∧
            (0 < l.qty_approved →
              l'.qty_prepared = min l.qty_approved s.available_quantity ∧
              s'.reserved_qty = s.reserved_qty + l'.qty_prepared ∧
              s'.quantity = s.quantity) ∧
            (l.qty_approved ≤ 0 → l' = l ∧ s' = s))) := by
  have hnadmin : ¬ ¬ is_admin = true := by simp [hadmin]
  constructor
  · intro hcb
    unfold prepare_demand
    rw [if_neg hnadmin, if_pos (by simp [hcb])]
  · intro hcb
    obtain ⟨lines', stocks', hplines, hlen1, hlen2, hpt⟩ :=
      prepare_lines_spec d.lines stocks hlen hinv
    refine ⟨{ status := .PREPARED, lines := lines' }, stocks', ?_, rfl,
      hlen1, hlen2, ?_⟩
    · unfold prepare_demand
      rw [if_neg hnadmin, if_neg (by simp [hcb]), hplines]
    · intro i l s hl hs
      obtain ⟨l', s', hl', hs', hcase1, hcase2⟩ := hpt i l s hl hs
      refine ⟨l', s', hl', hs', ?_, ?_, hcase2⟩
      · by_cases hqa : 0 < l.qty_approved
        · obtain ⟨h1, -⟩ := hcase1 hqa
          rw [h1]
          exact min_le_left _ _
        · push_neg at hqa
          obtain ⟨h1, -⟩ := hcase2 hqa
          rw [h1]
          have hz := hp0 l (List.get?_mem hl)
          have hn := hnn l (List.get?_mem hl)
          omega
      · intro hqa
        obtain ⟨h1, h2⟩ := hcase1 hqa
        subst h1
        subst h2
        exact ⟨rfl, by simp, rfl⟩

/-- Witness for C6: preparing one line approved at 7 against a row with 5
available reserves 5 and sets qty_prepared to 5. -/
theorem prepare_demand_spec_witness :
    ∃ d' stocks', prepare_demand true
        { status := .PARTIAL
          lines := [{ article := { id := 1, is_active := true }, qty_requested := 10,
                      qty_approved := 7, qty_prepared := 0 }] }
        [{ quantity := 5, reserved_qty := 0 }] = .ok (d', stocks') ∧
      d'.status = .PREPARED ∧
      d'.lines.length = 1 ∧ stocks'.length = 1 ∧
      (∀ i l s,
        ([{ article := { id := 1, is_active := true }, qty_requested := 10,
            qty_approved := 7, qty_prepared := 0 }] : List DemandeLine).get? i = some l →
        ([{ quantity := 5, reserved_qty := 0 }] : List StockLevel).get? i = some s →
        ∃ l' s', d'.lines.get? i = some l' ∧ stocks'.get? i = some s' ∧
          l'.qty_prepared ≤ l.qty_approved ∧
          (0 < l.qty_approved →
            l'.qty_prepared = min l.qty_approved s.available_quantity ∧
            s'.reserved_qty = s.reserved_qty + l'.qty_prepared ∧
            s'.quantity = s.quantity) ∧
          (l.qty_approved ≤ 0 → l' = l ∧ s' = s)) :=
  (prepare_demand_spec true
    { status := .PARTIAL
      lines := [{ article := { id := 1, is_active := true }, qty_requested := 10,
                  qty_approved := 7, qty_prepared := 0 }] }
    [{ quantity := 5, reserved_qty := 0 }] rfl rfl (by decide) (by decide)
    (by decide)).2 (by decide)

/-- Helper: `submit_cart` on an existing DRAFT cart unfolds to the
`can_be_submitted` gate followed by the atomic cart/demand creation. -/
theorem submit_cart_some (cart : Panier) :
    submit_cart (some cart) =
      if ¬cart.can_be_submitted then .error .cartCannotBeSubmitted
      else
        .ok ({ status := .SUBMITTED, lines := cart.lines },
             { status := .SUBMITTED
               lines := cart.lines.map fun l =>
                 { article := l.article, qty_requested := l.quantity,
                   qty_approved := 0, qty_prepared := 0 } }) := rfl

/-- C7: submitting a DRAFT cart fails (with the source's single
cart-cannot-be-submitted error) when the cart has no lines, and likewise
when any line's article is inactive; otherwise it atomically returns the
SUBMITTED cart together with one SUBMITTED demand carrying exactly one line
per cart line with `qty_requested` equal to that line's quantity. -/
theorem submit_cart_spec (cart : Panier) (hdraft : cart.status = .DRAFT) :
    (cart.lines = [] → submit_cart (some cart) = .error .cartCannotBeSubmitted) ∧
    ((∃ l ∈ cart.lines, l.article.is_active = false) →
      submit_cart (some cart) = .error .cartCannotBeSubmitted) ∧
    (cart.lines ≠ [] → (∀ l ∈ cart.lines, l.article.is_active = true) →
      submit_cart (some cart) =
        .ok ({ status := .SUBMITTED, lines := cart.lines },
             { status := .SUBMITTED
               lines := cart.lines.map fun l =>
                 { article := l.article, qty_requested := l.quantity,
                   qty_approved := 0, qty_prepared := 0 } }) ∧
      (cart.lines.map fun l =>
        ({ article := l.article, qty_requested := l.quantity,
           qty_approved := 0, qty_prepared := 0 } : DemandeLine)).length =
        cart.lines.length ∧
      (∀ i l, cart.lines.get? i = some l →
        (cart.lines.map fun l2 =>
          ({ article := l2.article, qty_requested := l2.quantity,
             qty_approved := 0, qty_prepared := 0 } : DemandeLine)).get? i =
          some { article := l.article, qty_requested := l.quantity,
                 qty_approved := 0, qty_prepared := 0 })) := by
  refine ⟨?_, ?_, ?_⟩
  · intro hl
    rw [submit_cart_some, if_pos (by simp [Panier.can_be_submitted, hl])]
  · intro hex
    obtain ⟨l0, hmem, hact⟩ := hex
    have hC : (cart.lines.all fun l => l.article.is_active) = false :=
      List.all_eq_false.mpr ⟨l0, hmem, by simp [hact]⟩
    rw [submit_cart_some, if_pos (by simp [Panier.can_be_submitted, hC])]
  · intro hne hall
    have hcan : cart.can_be_submitted = true := by
      have h1 : cart.lines.isEmpty = false := by
        cases hcl : cart.lines with
        | nil => exact absurd hcl hne
        | cons a t => rfl
      have h2 : (cart.lines.all fun l => l.article.is_active) = true :=
        List.all_eq_true.mpr fun l hl2 => hall l hl2
      unfold Panier.can_be_submitted
      rw [hdraft, h1, h2]
      rfl
    refine ⟨?_, List.length_map _ _, ?_⟩
    · rw [submit_cart_some, if_neg (by simp [hcan])]
    · intro i l hl
      rw [List.get?_map, hl]
      rfl

/-- Witness for C7: the spec round-trip, a cart with lines (A,5) and (B,3)
yields a SUBMITTED cart and a demand with two lines requesting 5 and 3. -/
theorem submit_cart_spec_witness :
    submit_cart (some { status := .DRAFT
                        lines := [{ article := { id := 1, is_active := true }, quantity := 5 },
                                  { article := { id := 2, is_active := true }, quantity := 3 }] }) =
      .ok ({ status := .SUBMITTED
             lines := [{ article := { id := 1, is_active := true }, quantity := 5 },
                       { article := { id := 2, is_active := true }, quantity := 3 }] },
           { status := .SUBMITTED
             lines := [{ article := { id := 1, is_active := true }, qty_requested := 5,
                         qty_approved := 0, qty_prepared := 0 },
                       { article := { id := 2, is_active := true }, qty_requested := 3,
                         qty_approved := 0, qty_prepared := 0 }] }) :=
  ((submit_cart_spec
    { status := .DRAFT
      lines := [{ article := { id := 1, is_active := true }, quantity := 5 },
                { article := { id := 2, is_active := true }, quantity := 3 }] }
    rfl).2.2 (by decide) (by decide)).1

/-- Helper: a receive by a technician of a positive quantity always
succeeds, adds the quantity, leaves the reservation untouched and appends
one RECEIPT movement. -/
theorem receive_stock_ok (tech : Profile) (qty : Int) (st : InvState)
    (hrole : tech.role = .TECH) (hq : 0 < qty) :
    receive_stock tech qty st =
      .ok { stock := { quantity := st.stock.quantity + qty,
                       reserved_qty := st.stock.reserved_qty }
            movements := st.movements ++
              [{ technician := tech.id, delta := qty, reason := .RECEIPT,
                 balance_after := st.stock.quantity + qty }] } := by
  unfold receive_stock
  rw [if_neg (by simp [hrole]), if_neg (not_le.mpr hq)]

/-- C9: handing over a prepared demand never releases the reservation taken
during preparation — each handover receipt adds `qty_prepared` to the
technician's quantity while leaving `reserved_qty` unchanged, so after
prepare-then-handover each row's `reserved_qty` (and their total) exceeds
its pre-prepare value by exactly the prepared quantity. -/
theorem handover_keeps_reservation (tech : Profile) (hrole : tech.role = .TECH) :
    ∀ (lines : List DemandeLine) (stocks : List StockLevel),
      lines.length = stocks.length →
      (∀ s ∈ stocks, s.invariantHolds) →
      (∀ l ∈ lines, 0 ≤ l.qty_approved) →
      (∀ l ∈ lines, l.qty_prepared = 0) →
      ∀ lines' stocks', prepare_lines lines stocks = .ok (lines', stocks') →
      ∃ stocks'' ms, handover_receipts tech lines' stocks' = .ok (stocks'', ms) ∧
        (∀ i l' s' s'', lines'.get? i = some l' → stocks'.get? i = some s' →
          stocks''.get? i = some s'' →
          s''.reserved_qty = s'.reserved_qty ∧
          s''.quantity = s'.quantity + l'.qty_prepared) ∧
        (∀ i l' s s'', lines'.get? i = some l' → stocks.get? i = some s →
          stocks''.get? i = some s'' →
          s''.reserved_qty = s.reserved_qty + l'.qty_prepared ∧
          s''.quantity = s.quantity + l'.qty_prepared) ∧
        ((stocks''.map fun s => s.reserved_qty).sum =
          (stocks.map fun s => s.reserved_qty).sum +
            (lines'.map fun l => l.qty_prepared).sum) := by
  intro lines
  induction lines with
  | nil =>
      intro stocks hlen hinv hnn hp0 lines' stocks' hp
      cases stocks with
      | cons s ss => simp at hlen
      | nil =>
          simp only [prepare_lines, Except.ok.injEq, Prod.mk.injEq] at hp
          obtain ⟨h1, h2⟩ := hp
          subst h1
          subst h2
          refine ⟨[], [], rfl, ?_, ?_, by simp⟩
          · intro i l' s' s'' hl' _ _
            simp at hl'
          · intro i l' s s'' hl' _ _
            simp at hl'
  | cons l ls ih =>
      intro stocks hlen hinv hnn hp0 lines' stocks' hp
      cases stocks with
      | nil => simp at hlen
      | cons s ss =>
          have hinvs : s.invariantHolds := hinv s (by simp)
          have havail : 0 ≤ s.available_quantity := by
            simp only [StockLevel.invariantHolds] at hinvs
            simp only [StockLevel.available_quantity]
            omega
          simp only [prepare_lines] at hp
          by_cases hqa : 0 < l.qty_approved
          · have hpl := (prepare_line_spec l s hinvs).1 hqa
            rw [hpl] at hp
            rcases hrec : prepare_lines ls ss with e | ⟨lsR, ssR⟩ <;> rw [hrec] at hp
            · simp at hp
            · simp only [Except.ok.injEq, Prod.mk.injEq] at hp
              obtain ⟨h1, h2⟩ := hp
              subst h1
              subst h2
              obtain ⟨tail'', msT, hhoT, hptA, hptB, hsum⟩ :=
                ih ss (by simpa using hlen) (fun s2 hs2 => hinv s2 (by simp [hs2]))
                  (fun l2 hl2 => hnn l2 (by simp [hl2]))
                  (fun l2 hl2 => hp0 l2 (by simp [hl2])) lsR ssR hrec
              have hpge : 0 ≤ min l.qty_approved s.available_quantity :=
                le_min hqa.le havail
              by_cases hppos : 0 < min l.qty_approved s.available_quantity
              · have hrecv := receive_stock_ok tech (min l.qty_approved s.available_quantity)
                  { stock := { quantity := s.quantity,
                               reserved_qty := s.reserved_qty + min l.qty_approved s.available_quantity }
                    movements := [] } hrole hppos
                refine ⟨{ quantity := s.quantity + min l.qty_approved s.available_quantity,
                          reserved_qty := s.reserved_qty + min l.qty_approved s.available_quantity } :: tail'',
                  { technician := tech.id, delta := min l.qty_approved s.available_quantity,
                    reason := .RECEIPT,
                    balance_after := s.quantity + min l.qty_approved s.available_quantity } :: msT,
                  ?_, ?_, ?_, ?_⟩
                · simp only [handover_receipts]
                  rw [if_pos hppos, hrecv, hhoT]
                  rfl
                · intro i l' s' s'' hl' hs' hs''
                  cases i with
                  | zero =>
                      simp only [List.get?] at hl' hs' hs''
                      injection hl' with hl'
                      injection hs' with hs'
                      injection hs'' with hs''
                      subst hl'
                      subst hs'
                      subst hs''
                      exact ⟨rfl, rfl⟩
                  | succ i =>
                      simp only [List.get?] at hl' hs' hs''
                      exact hptA i l' s' s'' hl' hs' hs''
                · intro i l' s0 s'' hl' hs0 hs''
                  cases i with
                  | zero =>
                      simp only [List.get?] at hl' hs0 hs''
                      injection hl' with hl'
                      injection hs0 with hs0
                      injection hs'' with hs''
                      subst hl'
                      subst hs0
                      subst hs''
                      exact ⟨rfl, rfl⟩
                  | succ i =>
                      simp only [List.get?] at hl' hs0 hs''
                      exact hptB i l' s0 s'' hl' hs0 hs''
                · simp only [List.map_cons, List.sum_cons] at hsum ⊢
                  omega
              · have hpz : min l.qty_approved s.available_quantity = 0 := by omega
                refine ⟨{ quantity := s.quantity,
                          reserved_qty := s.reserved_qty + min l.qty_approved s.available_quantity } :: tail'',
                  msT, ?_, ?_, ?_, ?_⟩
                · simp only [handover_receipts]
                  rw [if_neg (by simp [hpz]), hhoT]
                · intro i l' s' s'' hl' hs' hs''
                  cases i with
                  | zero =>
                      simp only [List.get?] at hl' hs' hs''
                      injection hl' with hl'
                      injection hs' with hs'
                      injection hs'' with hs''2
                      subst hl'
                      subst hs'
                      subst hs''2
                      refine ⟨rfl, ?_⟩
                      simp [hpz]
                  | succ i =>
                      simp only [List.get?] at hl' hs' hs''
                      exact hptA i l' s' s'' hl' hs' hs''
                · intro i l' s0 s'' hl' hs0 hs''
                  cases i with
                  | zero =>
                      simp only [List.get?] at hl' hs0 hs''
                      injection hl' with hl'
                      injection hs0 with hs0
                      injection hs'' with hs''2
                      subst hl'
                      subst hs0
                      subst hs''2
                      constructor
                      · rfl
                      · simp [hpz]
                  | succ i =>
                      simp only [List.get?] at hl' hs0 hs''
                      exact hptB i l' s0 s'' hl' hs0 hs''
                · simp only [List.map_cons, List.sum_cons] at hsum ⊢
                  omega
          · push_neg at hqa
            have hpl := (prepare_line_spec l s hinvs).2 hqa
            rw [hpl] at hp
            rcases hrec : prepare_lines ls ss with e | ⟨lsR, ssR⟩ <;> rw [hrec] at hp
            · simp at hp
            · simp only [Except.ok.injEq, Prod.mk.injEq] at hp
              obtain ⟨h1, h2⟩ := hp
              subst h1
              subst h2
              obtain ⟨tail'', msT, hhoT, hptA, hptB, hsum⟩ :=
                ih ss (by simpa using hlen) (fun s2 hs2 => hinv s2 (by simp [hs2]))
                  (fun l2 hl2 => hnn l2 (by simp [hl2]))
                  (fun l2 hl2 => hp0 l2 (by simp [hl2])) lsR ssR hrec
              have hlp0 : l.qty_prepared = 0 := hp0 l (by simp)
              refine ⟨s :: tail'', msT, ?_, ?_, ?_, ?_⟩
              · simp only [handover_receipts]
                rw [if_neg (by simp [hlp0]), hhoT]
              · intro i l' s' s'' hl' hs' hs''
                cases i with
                | zero =>
                    simp only [List.get?] at hl' hs' hs''
                    injection hl' with hl'
                    injection hs' with hs'
                    injection hs'' with hs''2
                    subst hl'
                    subst hs'
                    subst hs''2
                    exact ⟨rfl, by simp [hlp0]⟩
                | succ i =>
                    simp only [List.get?] at hl' hs' hs''
                    exact hptA i l' s' s'' hl' hs' hs''
              · intro i l' s0 s'' hl' hs0 hs''
                cases i with
                | zero =>
                    simp only [List.get?] at hl' hs0 hs''
                    injection hl' with hl'
                    injection hs0 with hs0
                    injection hs'' with hs''2
                    subst hl'
                    subst hs0
                    subst hs''2
                    exact ⟨by simp [hlp0], by simp [hlp0]⟩
                | succ i =>
                    simp only [List.get?] at hl' hs0 hs''
                    exact hptB i l' s0 s'' hl' hs0 hs''
              · simp only [List.map_cons, List.sum_cons] at hsum ⊢
                omega

/-- Witness for C9: one line prepared at 5 from a row holding 5; after
handover the row holds quantity 10 with reserved 5 — the reservation
persists. -/
theorem handover_keeps_reservation_witness :
    ∃ stocks'' ms, handover_receipts { id := 1, role := .TECH }
        [{ article := { id := 1, is_active := true }, qty_requested := 10,
           qty_approved := 7, qty_prepared := 5 }]
        [{ quantity := 5, reserved_qty := 5 }] = .ok (stocks'', ms) ∧
      (∀ i l' s' s'',
        ([{ article := { id := 1, is_active := true }, qty_requested := 10,
            qty_approved := 7, qty_prepared := 5 }] : List DemandeLine).get? i = some l' →
        ([{ quantity := 5, reserved_qty := 5 }] : List StockLevel).get? i = some s' →
        stocks''.get? i = some s'' →
        s''.reserved_qty = s'.reserved_qty ∧
        s''.quantity = s'.quantity + l'.qty_prepared) ∧
      (∀ i l' s s'',
        ([{ article := { id := 1, is_active := true }, qty_requested := 10,
            qty_approved := 7, qty_prepared := 5 }] : List DemandeLine).get? i = some l' →
        ([{ quantity := 5, reserved_qty := 0 }] : List StockLevel).get? i = some s →
        stocks''.get? i = some s'' →
        s''.reserved_qty = s.reserved_qty + l'.qty_prepared ∧
        s''.quantity = s.quantity + l'.qty_prepared) ∧
      ((stocks''.map fun s => s.reserved_qty).sum =
        (([{ quantity := 5, reserved_qty := 0 }] : List StockLevel).map
            fun s => s.reserved_qty).sum +
          (([{ article := { id := 1, is_active := true }, qty_requested := 10,
               qty_approved := 7, qty_prepared := 5 }] : List DemandeLine).map
            fun l => l.qty_prepared).sum) :=
  handover_keeps_reservation { id := 1, role := .TECH } rfl
    [{ article := { id := 1, is_active := true }, qty_requested := 10,
       qty_approved := 7, qty_prepared := 0 }]
    [{ quantity := 5, reserved_qty := 0 }] rfl (by decide) (by decide) (by decide)
    [{ article := { id := 1, is_active := true }, qty_requested := 10,
       qty_approved := 7, qty_prepared := 5 }]
    [{ quantity := 5, reserved_qty := 5 }] (by decide)
